import Mathlib

/-!
# Verification of the Phase Diversity backend (`backend/app/main.py`)

A shallow embedding, in Lean 4, of the FastAPI transport shell of the
phase-diversity web application, together with proofs of the behavioural
claims made by its specification.

Modelling conventions:
* Pixel values are rationals (`ℚ`); the real-valued residual-aberration
  statistics (which involve square roots) are modelled over `ℝ`.
* A FITS upload is modelled as a filename plus the outcome of parsing it:
  either an exception or a list of HDUs, each carrying an `is_image` flag
  and data of some dimensionality.  Exceptions are modelled at file
  granularity (the Python `try` wraps `fits.open` and the HDU loop).
* Stacking a list of 2-D arrays with `np.array` succeeds exactly when all
  shapes coincide (inhomogeneous shapes raise `ValueError`, which the code
  turns into an HTTP 400).
* PNG encoding, base64, header serialisation details and floating-point
  stack statistics that no claim touches are elided; thumbnails are
  modelled up to the grey-level normalisation stage.
-/

/-- `MIN_IMAGES` from `load_flexible_image_collection`. -/
def MIN_IMAGES : ℕ := 2

/-- `MAX_IMAGES` from `load_flexible_image_collection`. -/
def MAX_IMAGES : ℕ := 10

/-- The warning string attached when the 10-image limit is reached
(`"Limite de {MAX_IMAGES} images atteinte. ..."`). -/
def limitWarning : String :=
  "Limite de " ++ toString MAX_IMAGES ++
    " images atteinte. Les images suivantes ont été ignorées."

/-- The HTTP 400 detail used when fewer than `MIN_IMAGES` images were
collected (`"Au moins {MIN_IMAGES} images sont requises. ..."`). -/
def minImagesDetail (found : ℕ) : String :=
  "Au moins " ++ toString MIN_IMAGES ++ " images sont requises. " ++
    toString found ++ " seulement ont été trouvées."

/-- A 2-D pixel array: height, width, and row-major pixel data. -/
structure Image2D where
  H : ℕ
  W : ℕ
  data : List ℚ
deriving DecidableEq, Repr

instance : Inhabited Image2D := ⟨⟨0, 0, []⟩⟩

/-- The `.shape` of a 2-D array, as numpy reports it. -/
def Image2D.shape (img : Image2D) : ℕ × ℕ := (img.H, img.W)

/-- The data payload of a FITS HDU, classified by `ndim` as the code does:
3-D cubes are split into planes, 2-D arrays are single images, `None` data
and any other dimensionality fall through untouched. -/
inductive HduData where
  | noData
  | otherDim
  | twoD (img : Image2D)
  | threeD (planes : List Image2D)
deriving DecidableEq, Repr

/-- One FITS HDU: the `is_image` flag, its data, and its (already
serialised) header. -/
structure HDU where
  is_image : Bool
  data : HduData
  header : List (String × String)
deriving DecidableEq, Repr

deriving instance DecidableEq for Except

/-- One uploaded file: its name and the outcome of `fits.open` plus HDU
iteration (an exception, or the HDU list). -/
structure FitsFile where
  filename : String
  parsed : Except String (List HDU)
deriving DecidableEq, Repr

/-- Suffix test on character lists (the semantics of Python
`str.endswith`). -/
def listEndsWith (s suf : List Char) : Bool :=
  decide (s.drop (s.length - suf.length) = suf)

/-- `file.filename.endswith((".fits", ".fit"))`. -/
def isFitsName (s : String) : Bool :=
  listEndsWith s.data ".fits".data || listEndsWith s.data ".fit".data

/-- Metadata recorded for each collected image plane. -/
structure ImageInfo where
  source_file : String
  source_hdu_index : ℕ
  header : List (String × String)
deriving DecidableEq, Repr

/-- Mutable state of the collection loop in
`load_flexible_image_collection`. -/
structure CollectState where
  images : List Image2D
  infos : List ImageInfo
  warning : Option String
deriving DecidableEq, Repr

/-- The inner plane loop over a 3-D cube (`for i in range(data.shape[0])`):
append planes until the stack holds `MAX_IMAGES`, then set the warning and
stop. -/
def addPlanes (fname : String) (hduIndex : ℕ) (hdr : List (String × String)) :
    List Image2D → CollectState → CollectState
  | [], st => st
  | p :: rest, st =>
    if MAX_IMAGES ≤ st.images.length then
      { st with warning := some limitWarning }
    else
      addPlanes fname hduIndex hdr rest
        { st with
          images := st.images ++ [p]
          infos := st.infos ++ [⟨fname, hduIndex, hdr⟩] }

/-- Processing of a single HDU: skip non-image or empty HDUs, split 3-D
cubes into planes, append a 2-D image if the stack is not full (else set
the warning). -/
def processHdu (fname : String) (hduIndex : ℕ) (h : HDU) (st : CollectState) :
    CollectState :=
  if h.is_image then
    match h.data with
    | .noData => st
    | .otherDim => st
    | .threeD planes => addPlanes fname hduIndex h.header planes st
    | .twoD img =>
      if MAX_IMAGES ≤ st.images.length then
        { st with warning := some limitWarning }
      else
        { st with
          images := st.images ++ [img]
          infos := st.infos ++ [⟨fname, hduIndex, h.header⟩] }
  else st

/-- The HDU loop (`for hdu_index, hdu in enumerate(hdul)`), with the
`if warning: break` at the end of each iteration. -/
def processHdus (fname : String) : List HDU → ℕ → CollectState → CollectState
  | [], _, st => st
  | h :: rest, i, st =>
    let st' := processHdu fname i h st
    if st'.warning.isSome then st' else processHdus fname rest (i + 1) st'

/-- The file loop: skip files without a `.fits`/`.fit` name, skip files
whose parsing raised (logged, then `pass`), and break out once the warning
is set. -/
def processFiles : List FitsFile → CollectState → CollectState
  | [], st => st
  | f :: rest, st =>
    if isFitsName f.filename then
      match f.parsed with
      | .error _ => processFiles rest st
      | .ok hdus =>
        let st' := processHdus f.filename hdus 0 st
        if st'.warning.isSome then st' else processFiles rest st'
    else processFiles rest st

/-- A structured HTTP error (`fastapi.HTTPException`). -/
structure HTTPException where
  status_code : ℕ
  detail : String
deriving DecidableEq, Repr

/-- `load_flexible_image_collection`: run the collection loop, then reject
with HTTP 400 if fewer than `MIN_IMAGES` images were collected. -/
def load_flexible_image_collection (files : List FitsFile) :
    Except HTTPException (List Image2D × List ImageInfo × Option String) :=
  let st := processFiles files ⟨[], [], none⟩
  if st.images.length < MIN_IMAGES then
    .error ⟨400, minImagesDetail st.images.length⟩
  else
    .ok (st.images, st.infos, st.warning)

/-- The image planes (paired with their metadata) that a single HDU
contributes when nothing is skipped for capacity reasons. -/
def hduEntries (fname : String) (i : ℕ) (h : HDU) :
    List (Image2D × ImageInfo) :=
  if h.is_image then
    match h.data with
    | .threeD planes => planes.map (fun p => (p, ⟨fname, i, h.header⟩))
    | .twoD img => [(img, ⟨fname, i, h.header⟩)]
    | _ => []
  else []

/-- All planes a file contributes (empty for non-FITS names and failed
parses). -/
def fileEntries (f : FitsFile) : List (Image2D × ImageInfo) :=
  if isFitsName f.filename then
    match f.parsed with
    | .ok hdus => (hdus.enum.map (fun p => hduEntries f.filename p.1 p.2)).flatten
    | .error _ => []
  else []

/-- The full ordered sequence of image planes eligible for collection
across all uploaded files. -/
def eligibleEntries (files : List FitsFile) : List (Image2D × ImageInfo) :=
  (files.map fileEntries).flatten

/-- The state the collection loop reaches from `st` after consuming a
sequence of eligible entries: fill up to `MAX_IMAGES`, and set the warning
exactly when some entry had to be dropped. -/
def fillState (st : CollectState) (es : List (Image2D × ImageInfo)) :
    CollectState :=
  { images := st.images ++ (es.map Prod.fst).take (MAX_IMAGES - st.images.length)
    infos := st.infos ++ (es.map Prod.snd).take (MAX_IMAGES - st.images.length)
    warning :=
      if MAX_IMAGES < st.images.length + es.length then some limitWarning
      else none }

/-- Minimum of a pixel list (`ndarray.min()`); the empty case never occurs
behind the guards that precede every use. -/
def ratListMin : List ℚ → ℚ
  | [] => 0
  | x :: xs => xs.foldl min x

/-- Maximum of a pixel list (`ndarray.max()`). -/
def ratListMax : List ℚ → ℚ
  | [] => 0
  | x :: xs => xs.foldl max x

/-- Mean of a pixel list (`ndarray.mean()`). -/
def ratListMean (xs : List ℚ) : ℚ := xs.sum / xs.length

/-- Conversion of a float pixel to `uint8` by `astype(np.uint8)`:
truncation toward zero, wrapping modulo 256.  Every use below feeds it
values in `[0, 255]`. -/
def ratToUint8 (x : ℚ) : ℕ :=
  (Int.toNat (if 0 ≤ x then ⌊x⌋ % 256 else (-⌊-x⌋) % 256))

/-- The grey-level normalisation stage of `generate_thumbnail`: reject an
empty array; map linearly onto `0 ‥ 255` when `max > min`; otherwise emit a
uniform array of 128s.  (The subsequent PIL resampling and PNG/base64
encoding are outside the model.) -/
def generate_thumbnail_norm (img : Image2D) : Except String (List ℕ) :=
  if img.data.length = 0 then
    .error "Cannot generate thumbnail from empty array"
  else
    let mn := ratListMin img.data
    let mx := ratListMax img.data
    if mn < mx then
      .ok (img.data.map (fun v => ratToUint8 ((v - mn) / (mx - mn) * 255)))
    else
      .ok (img.data.map (fun _ => 128))

/-- A stacked 3-D array `[N, H, W]` with row-major data. -/
structure Array3D where
  n : ℕ
  h : ℕ
  w : ℕ
  data : List ℚ
deriving DecidableEq, Repr

/-- `np.array(images_list)` on a list of 2-D arrays: stacking succeeds
exactly when every image has the first image's shape (an inhomogeneous
list raises `ValueError`). -/
def npStack : List Image2D → Option Array3D
  | [] => some ⟨0, 0, 0, []⟩
  | i :: rest =>
    if rest.all (fun j => j.shape = i.shape) then
      some ⟨(i :: rest).length, i.H, i.W, ((i :: rest).map Image2D.data).flatten⟩
    else none

/-- The global statistics block of the `parse-images` response (the
floating-point standard deviation, which no claim touches, is elided). -/
structure ImageStats where
  shape : List ℕ
  global_min : ℚ
  global_max : ℚ
  global_mean : ℚ
  shape_consistent : Bool
deriving DecidableEq, Repr

/-- Per-image metadata extended with its thumbnail: `some bytes` for a
generated thumbnail, `none` for the placeholder used when generation
failed. -/
structure ProcessedImageInfo where
  info : ImageInfo
  thumbnail : Option (List ℕ)
deriving DecidableEq, Repr

/-- The successful `parse-images` response body. -/
structure ParseImagesResponse where
  images : Array3D
  stats : ImageStats
  image_info : List ProcessedImageInfo
  warning : Option String
deriving DecidableEq, Repr

/-- A Python exception as the endpoint handlers see it: either an already
structured `HTTPException`, or any other exception with its message. -/
inductive PyException where
  | http (e : HTTPException)
  | other (msg : String)
deriving DecidableEq, Repr

/-- `str(e)` for the exceptions above (Starlette renders an
`HTTPException` as `"{status_code}: {detail}"`). -/
def PyException.str : PyException → String
  | .http e => toString e.status_code ++ ": " ++ e.detail
  | .other m => m

/-- The detail of the HTTP 400 raised when `np.array` cannot stack the
collected images (the trailing `numpy` message text is elided). -/
def stackErrorDetail : String :=
  "Impossible d'empiler les images (dimensions incohérentes)"

/-- The post-load portion of the `parse_images` `try` block: flag shape
inconsistency, stack, build statistics and thumbnails. -/
def parse_images_ok (images_list : List Image2D)
    (info_list : List ImageInfo) (warning : Option String) :
    Except PyException ParseImagesResponse :=
  let first_shape := (images_list.headI).shape
  let shape_consistent := images_list.all (fun i => i.shape = first_shape)
  match npStack images_list with
  | none => .error (.http ⟨400, stackErrorDetail⟩)
  | some arr =>
    let stats : ImageStats :=
      { shape := [arr.n, arr.h, arr.w]
        global_min := ratListMin arr.data
        global_max := ratListMax arr.data
        global_mean := ratListMean arr.data
        shape_consistent := shape_consistent }
    let image_info := (info_list.zip images_list).map
      (fun p =>
        { info := p.1
          thumbnail :=
            match generate_thumbnail_norm p.2 with
            | .ok bytes => some bytes
            | .error _ => none })
    .ok ⟨arr, stats, image_info, warning⟩

/-- The `try` block of the `parse_images` endpoint: load the collection,
then continue with the post-load processing. -/
def parse_images_body (files : List FitsFile) :
    Except PyException ParseImagesResponse :=
  match load_flexible_image_collection files with
  | .error e => .error (.http e)
  | .ok (images_list, info_list, warning) =>
    parse_images_ok images_list info_list warning

/-- The `except` clauses of `parse_images`: re-raise structured
`HTTPException`s unchanged, wrap anything else as HTTP 500 with `str(e)` as
the detail. -/
def parse_images_handler {α : Type} (body : Except PyException α) :
    Except HTTPException α :=
  match body with
  | .ok a => .ok a
  | .error (.http e) => .error e
  | .error (.other m) => .error ⟨500, m⟩

/-- The full `parse_images` endpoint. -/
def parse_images (files : List FitsFile) :
    Except HTTPException ParseImagesResponse :=
  parse_images_handler (parse_images_body files)

/-- The single `except Exception` clause of `preview_config`: every
exception becomes an HTTP 500 whose detail is `str(e)`. -/
def preview_config_handler {α : Type} (body : Except PyException α) :
    Except HTTPException α :=
  match body with
  | .ok a => .ok a
  | .error e => .error ⟨500, e.str⟩

/-- The single `except Exception` clause of `search_phase`, identical in
shape to the one in `preview_config`. -/
def search_phase_handler {α : Type} (body : Except PyException α) :
    Except HTTPException α :=
  match body with
  | .ok a => .ok a
  | .error e => .error ⟨500, e.str⟩

/-- The optical configuration record received by `preview-config` and
`search-phase` (`OpticalConfigRequest`), with its FastAPI defaults. -/
structure OpticalConfigRequest where
  xc : Option ℤ := none
  yc : Option ℤ := none
  N : Option ℕ := none
  defoc_z : List ℚ
  pupilType : ℕ := 0
  flattening : ℚ := 1
  obscuration : ℚ := 0
  angle : ℚ := 0
  nedges : ℕ := 0
  spiderAngle : ℚ := 0
  spiderArms : List ℚ := []
  spiderOffset : List ℚ := []
  illum : List ℚ := [1]
  wvl : ℚ := 550e-9
  fratio : ℚ := 18
  pixelSize : ℚ := 7.4e-6
  edgeblur_percent : ℚ := 3
  object_fwhm_pix : ℚ := 0
  object_shape : String := "gaussian"
  basis : String := "eigen"
  Jmax : ℕ := 55
  initial_phase : Option (List ℚ) := none
  initial_illum : Option (List ℚ) := none
  initial_defoc_z : Option (List ℚ) := none
  initial_optax_x : Option (List ℚ) := none
  initial_optax_y : Option (List ℚ) := none
  initial_focscale : Option ℚ := none
  initial_object_fwhm_pix : Option ℚ := none
  initial_amplitude : Option (List ℚ) := none
  initial_background : Option (List ℚ) := none
deriving DecidableEq, Repr

/-- Modelled from the spec: the state of a constructed `Opticsetup`
instance (its class lives in the scientific core `diversity.py`, which is
not part of the inspected source).  The fields are exactly those the
transport shell reads or writes: the free-parameter groups of §3/§4.6 of
the spec, and the derived geometry/basis attributes used by the
configuration summaries. -/
structure Opticsetup where
  phase : List ℚ
  illum : List ℚ
  defoc_z : List ℚ
  optax_x : List ℚ
  optax_y : List ℚ
  focscale : ℚ
  object_fwhm_pix : ℚ
  amplitude : List ℚ
  background : List ℚ
  pdiam : ℚ
  N : ℕ
  Ncrop : ℕ
  basis_type : String
  idx : List ℕ
  phase_basis_cols : ℕ
  pupillum : List ℚ
  img : Array3D
  wvl : ℚ
  fratio : ℚ
  pixelSize : ℚ
deriving DecidableEq, Repr

/-- The continuation-injection block of `search_phase` (lines 619-660):
each `initial_*` field, when present, overwrites the corresponding
attribute of the freshly constructed setup. -/
def applyInitialValues (config : OpticalConfigRequest) (s : Opticsetup) :
    Opticsetup :=
  let s := match config.initial_phase with
    | some v => { s with phase := v } | none => s
  let s := match config.initial_illum with
    | some v => { s with illum := v } | none => s
  let s := match config.initial_defoc_z with
    | some v => { s with defoc_z := v } | none => s
  let s := match config.initial_optax_x with
    | some v => { s with optax_x := v } | none => s
  let s := match config.initial_optax_y with
    | some v => { s with optax_y := v } | none => s
  let s := match config.initial_focscale with
    | some v => { s with focscale := v } | none => s
  let s := match config.initial_object_fwhm_pix with
    | some v => { s with object_fwhm_pix := v } | none => s
  let s := match config.initial_amplitude with
    | some v => { s with amplitude := v } | none => s
  let s := match config.initial_background with
    | some v => { s with background := v } | none => s
  s

/-- Modelled from the spec: the Parameter Codec operation
`encode_coefficients` of the core (§4.3): packing into one flat vector, in
the fixed documented order — defocus offsets, focal scale, optical-axis x,
optical-axis y, amplitudes, backgrounds, phase coefficients, illumination
weights, object size — with per-image groups concatenated in image
order. -/
def encode_coefficients (defoc_z : List ℚ) (focscale : ℚ)
    (optax_x optax_y amplitude background phase illum : List ℚ)
    (object_fwhm_pix : ℚ) : List ℚ :=
  defoc_z ++ [focscale] ++ optax_x ++ optax_y ++ amplitude ++ background ++
    phase ++ illum ++ [object_fwhm_pix]

/-- The model-image/residual block of `search_phase` (lines 774-788),
parametrised by the core forward model `compute_psfs` (not part of the
inspected source): encode the setup parameters, synthesize the PSFs,
reshape to the observed-image shape, and subtract elementwise. -/
def searchPhaseModelImages (compute_psfs : Opticsetup → List ℚ → List ℚ)
    (s : Opticsetup) : Array3D × Array3D :=
  let coeffs := encode_coefficients s.defoc_z s.focscale s.optax_x s.optax_y
    s.amplitude s.background s.phase s.illum s.object_fwhm_pix
  let psfs := compute_psfs s coeffs
  let model_images : Array3D := ⟨s.img.n, s.img.h, s.img.w, psfs⟩
  let image_differences : Array3D :=
    ⟨s.img.n, s.img.h, s.img.w, List.zipWith (fun a b => a - b) s.img.data psfs⟩
  (model_images, image_differences)

/-- The fit-then-report sequence of the `search_phase` endpoint: run the
solve (modelled as an arbitrary state transformer, §4.5), then derive the
model images and residuals from the final parameter values. -/
def searchPhaseSolveAndModel (solve : Opticsetup → Opticsetup)
    (compute_psfs : Opticsetup → List ℚ → List ℚ) (s : Opticsetup) :
    Opticsetup × Array3D × Array3D :=
  let s' := solve s
  (s', searchPhaseModelImages compute_psfs s')

/-- The `config_info` block returned by both endpoints. -/
structure ConfigInfo where
  pdiam : ℚ
  nphi : ℕ
  sampling_factor : ℚ
  computation_format : String
  data_format : String
  basis_type : String
  phase_modes : ℕ
deriving DecidableEq, Repr

/-- The configuration summary computed by `preview_config`
(lines 516-549). -/
def previewConfigInfo (s : Opticsetup) (config : OpticalConfigRequest) :
    ConfigInfo :=
  let sampling_factor := config.wvl * config.fratio / config.pixelSize
  let nphi := s.idx.length
  let phase_modes :=
    if s.basis_type = "eigen" ∨ s.basis_type = "zernike" then
      s.phase_basis_cols
    else if s.basis_type = "eigenfull" then
      s.phase_basis_cols
    else nphi
  { pdiam := s.pdiam
    nphi := nphi
    sampling_factor := sampling_factor
    computation_format := toString s.N ++ "x" ++ toString s.N
    data_format := toString s.Ncrop ++ "x" ++ toString s.Ncrop
    basis_type := s.basis_type
    phase_modes := phase_modes }

/-- The configuration summary computed by `search_phase`
(lines 667-681 and 849-857), identical in content to the preview one. -/
def searchPhaseConfigInfo (s : Opticsetup) (config : OpticalConfigRequest) :
    ConfigInfo :=
  let sampling_factor := config.wvl * config.fratio / config.pixelSize
  let nphi := s.idx.length
  let phase_modes :=
    if s.basis_type = "eigen" ∨ s.basis_type = "zernike" then
      s.phase_basis_cols
    else if s.basis_type = "eigenfull" then
      s.phase_basis_cols
    else nphi
  { pdiam := s.pdiam
    nphi := nphi
    sampling_factor := sampling_factor
    computation_format := toString s.N ++ "x" ++ toString s.N
    data_format := toString s.Ncrop ++ "x" ++ toString s.Ncrop
    basis_type := s.basis_type
    phase_modes := phase_modes }

/-- What `sys.stdin` is bound to: the interactive stream the process
started with, or the mocked stream of prompt answers. -/
inductive StdinSource where
  | interactive
  | answerStream (answers : List String)
deriving DecidableEq, Repr

/-- What `sys.stdout` is bound to: the original stream, or the
logger-forwarding redirection. -/
inductive StdoutSink where
  | original
  | loggerRedirect
deriving DecidableEq, Repr

/-- The pair of process-wide streams the endpoints save, replace and
restore. -/
structure SysStdio where
  stdin : StdinSource
  stdout : StdoutSink
deriving DecidableEq, Repr

/-- The stream state installed while `Opticsetup` is constructed:
`sys.stdin = StringIO("y\n" * 100)` and stdout forwarded to the logger. -/
def mockedStdio : SysStdio :=
  ⟨.answerStream (List.replicate 100 "y"), .loggerRedirect⟩

/-- The `try`/`finally` construction wrapper shared by `preview_config`
(lines 477-513) and `search_phase` (lines 580-617): save both streams,
install the mocked ones, run the constructor (which may raise), and
restore the originals on every path. -/
def constructWithMockedStdio {E α : Type}
    (construct : SysStdio → Except E α) (s0 : SysStdio) :
    Except E α × SysStdio :=
  let old_stdin := s0.stdin
  let old_stdout := s0.stdout
  let result := construct mockedStdio
  (result, { stdin := old_stdin, stdout := old_stdout })

/-- The second `try`/`finally` in `search_phase` (lines 685-702): redirect
stdout to the logger around the solver call and restore it afterwards. -/
def solveWithRedirectedStdout {E α : Type}
    (run : SysStdio → Except E α) (s0 : SysStdio) :
    Except E α × SysStdio :=
  let old_stdout := s0.stdout
  let result := run { s0 with stdout := .loggerRedirect }
  (result, { s0 with stdout := old_stdout })

/-- Mean of a list of reals (`np.mean`, also the mean inside `np.std`). -/
noncomputable def npMean (xs : List ℝ) : ℝ := xs.sum / xs.length

/-- `np.std`: the square root of the mean squared deviation from the
mean. -/
noncomputable def npStd (xs : List ℝ) : ℝ :=
  Real.sqrt (npMean (xs.map (fun x => (x - npMean xs) ^ 2)))

/-- The radian-map-to-nanometre conversion applied in `search_phase`
(lines 709-726): `phase_generator(...) * wvl / (2 * np.pi) * 1e9`,
elementwise. -/
noncomputable def phiPupilNm (phaseMap : List ℝ) (wvl : ℝ) : List ℝ :=
  phaseMap.map (fun x => x * wvl / (2 * Real.pi) * 1e9)

/-- The illumination-weighted RMS computed in `search_phase`
(lines 730-749): `np.sqrt(np.sum(phi**2 * pupillum) / np.sum(pupillum))`. -/
noncomputable def weightedRms (phi pupillum : List ℝ) : ℝ :=
  Real.sqrt ((List.zipWith (fun a b => a ^ 2 * b) phi pupillum).sum /
    pupillum.sum)

/-- The six-entry `rms_stats` block of the `search_phase` response. -/
structure RmsStats where
  raw : ℝ
  weighted : ℝ
  raw_notilt : ℝ
  weighted_notilt : ℝ
  raw_notiltdef : ℝ
  weighted_notiltdef : ℝ

/-- The residual-aberration statistics block of `search_phase`
(lines 709-749 and 819-826), as a function of the three phase maps
produced by `phase_generator` (full, tip/tilt removed, tip/tilt and
defocus removed), the pupil illumination and the wavelength. -/
noncomputable def searchPhaseRmsStats
    (phiFull phiNoTilt phiNoTiltDef pupillum : List ℝ) (wvl : ℝ) :
    RmsStats :=
  let p1 := phiPupilNm phiFull wvl
  let p2 := phiPupilNm phiNoTilt wvl
  let p3 := phiPupilNm phiNoTiltDef wvl
  { raw := npStd p1
    weighted := weightedRms p1 pupillum
    raw_notilt := npStd p2
    weighted_notilt := weightedRms p2 pupillum
    raw_notiltdef := npStd p3
    weighted_notiltdef := weightedRms p3 pupillum }

/-- The conversion factor the spec prescribes for nm-RMS reporting:
multiply a radian value by `wavelength/(2π) · 1e9`. -/
noncomputable def radiansToNm (wvl x : ℝ) : ℝ := x * (wvl / (2 * Real.pi) * 1e9)

/-- The standard deviation as the spec words it, written independently of
the code: the square root of (mean square minus squared mean). -/
noncomputable def specStdDev (xs : List ℝ) : ℝ :=
  Real.sqrt ((xs.map (fun x => x ^ 2)).sum / xs.length -
    (xs.sum / xs.length) ^ 2)

/-- The weighted RMS as the spec words it:
`sqrt(Σ φ²·pupillum / Σ pupillum)`. -/
noncomputable def specWeightedRms (phi pupillum : List ℝ) : ℝ :=
  Real.sqrt ((List.zipWith (fun a b => a ^ 2 * b) phi pupillum).sum /
    pupillum.sum)

lemma fillState_nil (st : CollectState) (hw : st.warning = none)
    (hl : st.images.length ≤ MAX_IMAGES) : fillState st [] = st := by
  cases st with
  | mk imgs infs w =>
    simp only at hw hl
    subst hw
    simp only [fillState, List.map_nil, List.take_nil, List.append_nil,
      List.length_nil, Nat.add_zero, CollectState.mk.injEq]
    exact ⟨trivial, trivial, if_neg (Nat.not_lt.mpr hl)⟩

lemma fillState_warning (st : CollectState) (es : List (Image2D × ImageInfo)) :
    (fillState st es).warning =
      if MAX_IMAGES < st.images.length + es.length then some limitWarning
      else none := rfl

lemma fillState_images_length (st : CollectState)
    (es : List (Image2D × ImageInfo))
    (h : st.images.length + es.length ≤ MAX_IMAGES) :
    (fillState st es).images.length = st.images.length + es.length := by
  simp only [fillState, List.length_append, List.length_take, List.length_map]
  omega

lemma fillState_of_le (st : CollectState)
    (es : List (Image2D × ImageInfo))
    (h : st.images.length + es.length ≤ MAX_IMAGES) :
    fillState st es =
      ⟨st.images ++ es.map Prod.fst, st.infos ++ es.map Prod.snd, none⟩ := by
  simp only [fillState, CollectState.mk.injEq]
  refine ⟨?_, ?_, ?_⟩
  · rw [List.take_of_length_le (by simp only [List.length_map]; omega)]
  · rw [List.take_of_length_le (by simp only [List.length_map]; omega)]
  · rw [if_neg (by omega)]

lemma fillState_append (st : CollectState)
    (es₁ es₂ : List (Image2D × ImageInfo))
    (h : st.images.length + es₁.length ≤ MAX_IMAGES) :
    fillState (fillState st es₁) es₂ = fillState st (es₁ ++ es₂) := by
  rw [fillState_of_le st es₁ h]
  have harith : MAX_IMAGES - (st.images.length + es₁.length) =
      MAX_IMAGES - st.images.length - es₁.length := by omega
  simp only [fillState, List.map_append, List.length_append, List.length_map,
    List.append_assoc, CollectState.mk.injEq]
  refine ⟨?_, ?_, ?_⟩
  · rw [List.take_append_eq_append_take,
      List.take_of_length_le (l := es₁.map Prod.fst)
        (by simp only [List.length_map]; omega)]
    simp only [List.length_map, harith]
  · rw [List.take_append_eq_append_take,
      List.take_of_length_le (l := es₁.map Prod.snd)
        (by simp only [List.length_map]; omega)]
    simp only [List.length_map, harith]
  · split_ifs with h1 h2 <;> first | rfl | omega

lemma fillState_absorb (st : CollectState)
    (es₁ es₂ : List (Image2D × ImageInfo))
    (hl : st.images.length ≤ MAX_IMAGES)
    (h : MAX_IMAGES < st.images.length + es₁.length) :
    fillState st es₁ = fillState st (es₁ ++ es₂) := by
  have h₁ : MAX_IMAGES - st.images.length ≤ es₁.length := by omega
  simp only [fillState, List.map_append, List.length_append,
    CollectState.mk.injEq]
  refine ⟨?_, ?_, ?_⟩
  · rw [List.take_append_of_le_length (by simp only [List.length_map]; omega)]
  · rw [List.take_append_of_le_length (by simp only [List.length_map]; omega)]
  · rw [if_pos h, if_pos (by omega)]

lemma addPlanes_eq (fname : String) (hduIndex : ℕ)
    (hdr : List (String × String)) (ps : List Image2D) (st : CollectState)
    (hw : st.warning = none) (hl : st.images.length ≤ MAX_IMAGES) :
    addPlanes fname hduIndex hdr ps st =
      fillState st (ps.map (fun p => (p, ⟨fname, hduIndex, hdr⟩))) := by
  induction ps generalizing st with
  | nil => simp only [List.map_nil, addPlanes, fillState_nil st hw hl]
  | cons p rest ih =>
    rw [addPlanes]
    by_cases hfull : MAX_IMAGES ≤ st.images.length
    · rw [if_pos hfull]
      have hx : MAX_IMAGES - st.images.length = 0 := by omega
      have hcond : MAX_IMAGES < st.images.length + ((p :: rest).map
          (fun q => (q, (⟨fname, hduIndex, hdr⟩ : ImageInfo)))).length := by
        simp only [List.length_map, List.length_cons]
        omega
      simp only [fillState, hx, List.take_zero, List.append_nil,
        if_pos hcond]
    · rw [if_neg hfull]
      have hle : st.images.length + ([(p, (⟨fname, hduIndex, hdr⟩ : ImageInfo))] : List (Image2D × ImageInfo)).length ≤ MAX_IMAGES := by
        simp only [List.length_cons, List.length_nil]
        omega
      have hone : fillState st [(p, ⟨fname, hduIndex, hdr⟩)] = { st with images := st.images ++ [p], infos := st.infos ++ [⟨fname, hduIndex, hdr⟩] } := by
        rw [fillState_of_le st _ hle]
        simp only [List.map_cons, List.map_nil]
        rw [hw]
      have hw₂ : (fillState st [(p, (⟨fname, hduIndex, hdr⟩ : ImageInfo))]).warning = none := by
        rw [fillState_warning]
        exact if_neg (by simp only [List.length_cons, List.length_nil]; omega)
      have hl₂ : (fillState st [(p, (⟨fname, hduIndex, hdr⟩ : ImageInfo))]).images.length ≤ MAX_IMAGES := by
        rw [fillState_images_length st _ hle]
        simp only [List.length_cons, List.length_nil]
        omega
      have hstep := ih (fillState st [(p, ⟨fname, hduIndex, hdr⟩)]) hw₂ hl₂
      rw [hone] at hstep
      rw [hstep, ← hone, fillState_append st _ _ hle]
      simp only [List.map_cons, List.singleton_append]

lemma processHdu_eq (fname : String) (i : ℕ) (h : HDU) (st : CollectState)
    (hw : st.warning = none) (hl : st.images.length ≤ MAX_IMAGES) :
    processHdu fname i h st = fillState st (hduEntries fname i h) := by
  obtain ⟨b, d, hdr⟩ := h
  cases b with
  | false => simp [processHdu, hduEntries, fillState_nil st hw hl]
  | true =>
    cases d with
    | noData => simp [processHdu, hduEntries, fillState_nil st hw hl]
    | otherDim => simp [processHdu, hduEntries, fillState_nil st hw hl]
    | threeD planes =>
      simpa [processHdu, hduEntries] using
        addPlanes_eq fname i hdr planes st hw hl
    | twoD img =>
      simp only [processHdu, hduEntries, if_true]
      by_cases hfull : MAX_IMAGES ≤ st.images.length
      · rw [if_pos hfull]
        have hx : MAX_IMAGES - st.images.length = 0 := by omega
        have hcond : MAX_IMAGES < st.images.length +
            ([(img, (⟨fname, i, hdr⟩ : ImageInfo))] :
              List (Image2D × ImageInfo)).length := by
          simp only [List.length_cons, List.length_nil]
          omega
        simp only [fillState, hx, List.take_zero, List.append_nil,
          if_pos hcond]
      · rw [if_neg hfull]
        have hle : st.images.length + ([(img, (⟨fname, i, hdr⟩ : ImageInfo))] : List (Image2D × ImageInfo)).length ≤ MAX_IMAGES := by
          simp only [List.length_cons, List.length_nil]
          omega
        rw [fillState_of_le st _ hle]
        simp only [List.map_cons, List.map_nil]
        rw [hw]

lemma fillState_continue (st : CollectState)
    (es₁ es₂ : List (Image2D × ImageInfo))
    (hl : st.images.length ≤ MAX_IMAGES)
    (cont : CollectState → CollectState)
    (hcont : ∀ s, s.warning = none → s.images.length ≤ MAX_IMAGES →
      cont s = fillState s es₂) :
    (if (fillState st es₁).warning.isSome then fillState st es₁
     else cont (fillState st es₁)) = fillState st (es₁ ++ es₂) := by
  by_cases hc : MAX_IMAGES < st.images.length + es₁.length
  · rw [if_pos (by rw [fillState_warning, if_pos hc]; rfl)]
    exact fillState_absorb st es₁ es₂ hl hc
  · have hle : st.images.length + es₁.length ≤ MAX_IMAGES := by omega
    rw [if_neg (by rw [fillState_warning, if_neg hc]; simp)]
    rw [hcont _ (by rw [fillState_warning, if_neg hc])
      (by rw [fillState_images_length st es₁ hle]; omega)]
    exact fillState_append st es₁ es₂ hle

lemma processHdus_eq (fname : String) (hdus : List HDU) (i : ℕ)
    (st : CollectState) (hw : st.warning = none)
    (hl : st.images.length ≤ MAX_IMAGES) :
    processHdus fname hdus i st =
      fillState st (((hdus.enumFrom i).map
        (fun p => hduEntries fname p.1 p.2)).flatten) := by
  induction hdus generalizing i st with
  | nil =>
    simp only [processHdus, List.enumFrom, List.map_nil, List.flatten_nil,
      fillState_nil st hw hl]
  | cons h rest ih =>
    simp only [processHdus, List.enumFrom, List.map_cons, List.flatten_cons]
    rw [processHdu_eq fname i h st hw hl]
    exact fillState_continue st (hduEntries fname i h)
      (((rest.enumFrom (i + 1)).map
        (fun p => hduEntries fname p.1 p.2)).flatten) hl
      (processHdus fname rest (i + 1))
      (fun s hsw hsl => ih (i + 1) s hsw hsl)

lemma processFiles_eq (files : List FitsFile) (st : CollectState)
    (hw : st.warning = none) (hl : st.images.length ≤ MAX_IMAGES) :
    processFiles files st = fillState st (eligibleEntries files) := by
  induction files generalizing st with
  | nil =>
    simp only [processFiles, eligibleEntries, List.map_nil,
      List.flatten_nil, fillState_nil st hw hl]
  | cons f rest ih =>
    simp only [eligibleEntries] at ih
    simp only [processFiles, eligibleEntries, List.map_cons,
      List.flatten_cons]
    by_cases hn : isFitsName f.filename
    · rw [if_pos hn]
      cases hp : f.parsed with
      | error e =>
        have key : processFiles rest st =
            fillState st (fileEntries f ++ (rest.map fileEntries).flatten) := by
          rw [ih st hw hl]
          have hfe : fileEntries f = [] := by
            simp [fileEntries, hn, hp]
          rw [hfe, List.nil_append]
        exact key
      | ok hdus =>
        have hfe : fileEntries f = ((hdus.enumFrom 0).map
            (fun p => hduEntries f.filename p.1 p.2)).flatten := by
          simp [fileEntries, hn, hp, List.enum]
        have key : (if (processHdus f.filename hdus 0 st).warning.isSome then
              processHdus f.filename hdus 0 st
            else processFiles rest (processHdus f.filename hdus 0 st)) =
            fillState st (fileEntries f ++ (rest.map fileEntries).flatten) := by
          rw [processHdus_eq f.filename hdus 0 st hw hl, hfe]
          exact fillState_continue st _ _ hl (processFiles rest)
            (fun s hsw hsl => ih s hsw hsl)
        exact key
    · rw [if_neg hn, ih st hw hl]
      have hfe : fileEntries f = [] := by
        simp [fileEntries, hn]
      rw [hfe, List.nil_append]

lemma load_eq (files : List FitsFile) :
    load_flexible_image_collection files =
      if (eligibleEntries files).length < MIN_IMAGES then
        .error ⟨400, minImagesDetail (eligibleEntries files).length⟩
      else
        .ok (((eligibleEntries files).map Prod.fst).take MAX_IMAGES,
          ((eligibleEntries files).map Prod.snd).take MAX_IMAGES,
          if MAX_IMAGES < (eligibleEntries files).length then
            some limitWarning
          else none) := by
  have hM : MAX_IMAGES = 10 := rfl
  have hm : MIN_IMAGES = 2 := rfl
  unfold load_flexible_image_collection
  have h0 : processFiles files ⟨[], [], none⟩ =
      fillState ⟨[], [], none⟩ (eligibleEntries files) :=
    processFiles_eq files _ rfl (by simp)
  rw [h0]
  simp only [fillState, List.nil_append, List.length_take, List.length_map,
    Nat.sub_zero, List.length_nil, Nat.zero_add]
  by_cases hlt : (eligibleEntries files).length < MIN_IMAGES
  · rw [if_pos (by omega), if_pos hlt]
    have hmin : min MAX_IMAGES (eligibleEntries files).length =
        (eligibleEntries files).length := by omega
    rw [hmin]
  · rw [if_neg (by omega), if_neg hlt]

/-- A sample upload for exercising the collection limit: one FITS file
holding a 3-D cube of eleven 1×1 planes. -/
def elevenPlaneUpload : List FitsFile :=
  [⟨"cube.fits", .ok [⟨true, .threeD (List.replicate 11 ⟨1, 1, [0]⟩), []⟩]⟩]

/-- C1: for every upload to `parse-images`, if fewer than 2 two-dimensional
images can be collected the operation fails with an HTTP 400 naming the
minimum of 2; at most 10 images are ever collected, and when more than 10
eligible planes are supplied the response is still successful, holds
exactly the first 10 planes, and carries the limit warning string instead
of an error. -/
theorem claim_C1 (files : List FitsFile) :
    (∀ imgs infos w,
        load_flexible_image_collection files = .ok (imgs, infos, w) →
        imgs.length ≤ MAX_IMAGES) ∧
    ((eligibleEntries files).length < MIN_IMAGES →
        load_flexible_image_collection files =
          .error ⟨400, minImagesDetail (eligibleEntries files).length⟩) ∧
    (MAX_IMAGES < (eligibleEntries files).length →
        load_flexible_image_collection files =
          .ok (((eligibleEntries files).map Prod.fst).take MAX_IMAGES,
            ((eligibleEntries files).map Prod.snd).take MAX_IMAGES,
            some limitWarning)) := by
  have hM : MAX_IMAGES = 10 := rfl
  have hm : MIN_IMAGES = 2 := rfl
  refine ⟨?_, ?_, ?_⟩
  · intro imgs infos w hok
    rw [load_eq files] at hok
    by_cases hlt : (eligibleEntries files).length < MIN_IMAGES
    · rw [if_pos hlt] at hok
      exact absurd hok (by simp)
    · rw [if_neg hlt] at hok
      simp only [Except.ok.injEq, Prod.mk.injEq] at hok
      obtain ⟨h1, h2, h3⟩ := hok
      rw [← h1]
      simp only [List.length_take, List.length_map]
      omega
  · intro hlt
    rw [load_eq files, if_pos hlt]
  · intro hgt
    rw [load_eq files, if_neg (by omega), if_pos hgt]

theorem claim_C1_witness :
    (MAX_IMAGES < (eligibleEntries elevenPlaneUpload).length ∧
      load_flexible_image_collection elevenPlaneUpload =
        .ok (((eligibleEntries elevenPlaneUpload).map Prod.fst).take
            MAX_IMAGES,
          ((eligibleEntries elevenPlaneUpload).map Prod.snd).take MAX_IMAGES,
          some limitWarning)) ∧
    ((eligibleEntries ([] : List FitsFile)).length < MIN_IMAGES ∧
      load_flexible_image_collection [] =
        .error ⟨400, minImagesDetail (eligibleEntries
          ([] : List FitsFile)).length⟩) :=
  ⟨⟨by decide, (claim_C1 elevenPlaneUpload).2.2 (by decide)⟩,
    ⟨by decide, (claim_C1 []).2.1 (by decide)⟩⟩

/-- The image planes an HDU contributes, independent of the enclosing file
name and HDU index. -/
def hduImages (h : HDU) : List Image2D :=
  if h.is_image then
    match h.data with
    | .threeD planes => planes
    | .twoD img => [img]
    | _ => []
  else []

lemma hduEntries_map_fst (fname : String) (i : ℕ) (h : HDU) :
    (hduEntries fname i h).map Prod.fst = hduImages h := by
  obtain ⟨b, d, hdr⟩ := h
  cases b <;> cases d <;>
    simp [hduEntries, hduImages, Function.comp_def]

lemma fileEntries_map_fst (fname : String) (hdus : List HDU) :
    (fileEntries ⟨fname, .ok hdus⟩).map Prod.fst =
      if isFitsName fname then (hdus.map hduImages).flatten else [] := by
  by_cases hn : isFitsName fname
  · simp only [fileEntries, hn, if_true, List.map_flatten, List.map_map]
    congr 1
    have : (fun p => (hduEntries fname p.1 p.2).map Prod.fst) =
        (fun p : ℕ × HDU => hduImages p.2) := by
      funext p
      exact hduEntries_map_fst fname p.1 p.2
    rw [show (List.map Prod.fst ∘ fun p : ℕ × HDU =>
        hduEntries fname p.1 p.2) = fun p : ℕ × HDU => hduImages p.2
      from funext (fun p => hduEntries_map_fst fname p.1 p.2)]
    rw [show (fun p : ℕ × HDU => hduImages p.2) =
        hduImages ∘ Prod.snd from rfl, ← List.map_map,
      List.enum_map_snd]
  · simp [fileEntries, hn]

lemma eligibleEntries_append (l₁ l₂ : List FitsFile) :
    eligibleEntries (l₁ ++ l₂) =
      eligibleEntries l₁ ++ eligibleEntries l₂ := by
  simp [eligibleEntries]

lemma fileEntries_skip_name (f : FitsFile)
    (hn : isFitsName f.filename = false) : fileEntries f = [] := by
  simp [fileEntries, hn]

lemma fileEntries_skip_error (fname msg : String) :
    fileEntries ⟨fname, .error msg⟩ = [] := by
  by_cases hn : isFitsName fname <;> simp [fileEntries, hn]

/-- The `parse-images` collection outcome with the per-image metadata
projected away: the collected images, the warning, and the error status. -/
def loadImagesOutcome (files : List FitsFile) :
    Except HTTPException (List Image2D × Option String) :=
  (load_flexible_image_collection files).map (fun r => (r.1, r.2.2))

lemma loadImagesOutcome_congr (files₁ files₂ : List FitsFile)
    (hfst : (eligibleEntries files₁).map Prod.fst =
      (eligibleEntries files₂).map Prod.fst) :
    loadImagesOutcome files₁ = loadImagesOutcome files₂ := by
  have hlen : (eligibleEntries files₁).length =
      (eligibleEntries files₂).length := by
    rw [← List.length_map (eligibleEntries files₁) Prod.fst, hfst,
      List.length_map]
  unfold loadImagesOutcome
  rw [load_eq files₁, load_eq files₂, hlen, hfst]
  by_cases hlt : (eligibleEntries files₂).length < MIN_IMAGES
  · rw [if_pos hlt, if_pos hlt]
  · rw [if_neg hlt, if_neg hlt]
    rfl

lemma hduImages_skip (h : HDU)
    (hs : h.is_image = false ∨ h.data = .noData) : hduImages h = [] := by
  obtain ⟨b, d, hdr⟩ := h
  rcases hs with hs | hs
  · simp only at hs
    rw [hs]
    simp [hduImages]
  · simp only at hs
    rw [hs]
    cases b <;> simp [hduImages]

lemma load_congr_entries (files₁ files₂ : List FitsFile)
    (he : eligibleEntries files₁ = eligibleEntries files₂) :
    load_flexible_image_collection files₁ =
      load_flexible_image_collection files₂ := by
  rw [load_eq files₁, load_eq files₂, he]

lemma eligibleEntries_cons (f : FitsFile) (rest : List FitsFile) :
    eligibleEntries (f :: rest) = fileEntries f ++ eligibleEntries rest := by
  simp [eligibleEntries]

/-- C10: during image collection, a file whose name does not end in
`.fits`/`.fit`, a file whose parsing raises, and an HDU that is not an
image or has no data are each skipped without aborting the request (the
latter shifts only the recorded HDU indices, so it is stated on the
metadata-free outcome); the request fails if and only if fewer than 2
images remain once every file has been processed. -/
theorem claim_C10 :
    (∀ (pre post : List FitsFile) (f : FitsFile),
        isFitsName f.filename = false →
        load_flexible_image_collection (pre ++ f :: post) =
          load_flexible_image_collection (pre ++ post)) ∧
    (∀ (pre post : List FitsFile) (fname msg : String),
        load_flexible_image_collection (pre ++ ⟨fname, .error msg⟩ :: post) =
          load_flexible_image_collection (pre ++ post)) ∧
    (∀ (pre post : List FitsFile) (fname : String) (hpre hpost : List HDU)
        (h : HDU), h.is_image = false ∨ h.data = .noData →
        loadImagesOutcome (pre ++ ⟨fname, .ok (hpre ++ h :: hpost)⟩ :: post) =
          loadImagesOutcome (pre ++ ⟨fname, .ok (hpre ++ hpost)⟩ :: post)) ∧
    (∀ files : List FitsFile,
        (∃ e, load_flexible_image_collection files = .error e) ↔
          (eligibleEntries files).length < MIN_IMAGES) := by
  refine ⟨?_, ?_, ?_, ?_⟩
  · intro pre post f hn
    refine load_congr_entries _ _ ?_
    rw [eligibleEntries_append, eligibleEntries_append,
      eligibleEntries_cons, fileEntries_skip_name f hn, List.nil_append]
  · intro pre post fname msg
    refine load_congr_entries _ _ ?_
    rw [eligibleEntries_append, eligibleEntries_append,
      eligibleEntries_cons, fileEntries_skip_error fname msg,
      List.nil_append]
  · intro pre post fname hpre hpost h hs
    refine loadImagesOutcome_congr _ _ ?_
    rw [eligibleEntries_append, eligibleEntries_append,
      eligibleEntries_cons, eligibleEntries_cons]
    simp only [List.map_append]
    congr 1
    congr 1
    rw [fileEntries_map_fst, fileEntries_map_fst]
    by_cases hn : isFitsName fname
    · rw [if_pos hn, if_pos hn]
      simp only [List.map_append, List.map_cons, List.flatten_append,
        List.flatten_cons, hduImages_skip h hs, List.nil_append]
    · rw [if_neg hn, if_neg hn]
  · intro files
    constructor
    · rintro ⟨e, he⟩
      by_contra hlt
      rw [load_eq files, if_neg hlt] at he
      cases he
    · intro hlt
      exact ⟨_, by rw [load_eq files, if_pos hlt]⟩

theorem claim_C10_witness :
    (load_flexible_image_collection
        ([] ++ (⟨"notes.txt", .ok [⟨true, .twoD ⟨1, 1, [0]⟩, []⟩]⟩ :
          FitsFile) :: []) =
      load_flexible_image_collection ([] ++ [])) ∧
    (loadImagesOutcome
        ([] ++ (⟨"a.fits", .ok ([] ++ (⟨false, .twoD ⟨1, 1, [0]⟩, []⟩ :
          HDU) :: [⟨true, .twoD ⟨1, 1, [5]⟩, []⟩])⟩ : FitsFile) :: []) =
      loadImagesOutcome
        ([] ++ (⟨"a.fits", .ok ([] ++ [⟨true, .twoD ⟨1, 1, [5]⟩, []⟩])⟩ :
          FitsFile) :: [])) ∧
    (∃ e, load_flexible_image_collection [] = .error e) :=
  ⟨claim_C10.1 [] [] ⟨"notes.txt", .ok [⟨true, .twoD ⟨1, 1, [0]⟩, []⟩]⟩
      (by decide),
    claim_C10.2.2.1 [] [] "a.fits" [] [⟨true, .twoD ⟨1, 1, [5]⟩, []⟩]
      ⟨false, .twoD ⟨1, 1, [0]⟩, []⟩ (Or.inl rfl),
    (claim_C10.2.2.2 []).mpr (by decide)⟩

lemma parse_images_body_of_ok (files : List FitsFile)
    (imgs : List Image2D) (infos : List ImageInfo) (w : Option String)
    (hok : load_flexible_image_collection files = .ok (imgs, infos, w)) :
    parse_images_body files = parse_images_ok imgs infos w := by
  unfold parse_images_body
  rw [hok]

lemma npStack_eq_none (imgs : List Image2D)
    (hne : imgs ≠ [])
    (hshape : ¬ ∀ i ∈ imgs, i.shape = (imgs.headI).shape) :
    npStack imgs = none := by
  cases imgs with
  | nil => exact absurd rfl hne
  | cons i rest =>
    have key : (if (rest.all fun j => decide (j.shape = i.shape)) = true
        then some (⟨(i :: rest).length, i.H, i.W,
          ((i :: rest).map Image2D.data).flatten⟩ : Array3D)
        else none) = none := by
      rw [if_neg]
      intro hall
      refine hshape ?_
      intro j hj
      rcases List.mem_cons.mp hj with hj | hj
      · rw [hj]
        rfl
      · have hx := (List.all_eq_true.mp hall) j hj
        simpa using hx
    exact key

lemma parse_images_ok_inconsistent (imgs : List Image2D)
    (infos : List ImageInfo) (w : Option String) (hne : imgs ≠ [])
    (hshape : ¬ ∀ i ∈ imgs, i.shape = (imgs.headI).shape) :
    parse_images_ok imgs infos w = .error (.http ⟨400, stackErrorDetail⟩) := by
  unfold parse_images_ok
  rw [npStack_eq_none imgs hne hshape]

/-- C2: when the collected images of a `parse-images` request do not all
share one identical height and width, the request is rejected with an
HTTP error (the loose per-image shape check only flags the response;
rejection happens when the inhomogeneous list reaches `np.array`). -/
theorem claim_C2 (files : List FitsFile) (imgs : List Image2D)
    (infos : List ImageInfo) (w : Option String)
    (hok : load_flexible_image_collection files = .ok (imgs, infos, w))
    (hshape : ¬ ∀ i ∈ imgs, i.shape = (imgs.headI).shape) :
    parse_images files = .error ⟨400, stackErrorDetail⟩ := by
  have hne : imgs ≠ [] := by
    intro hnil
    refine hshape ?_
    intro i hi
    rw [hnil] at hi
    cases hi
  unfold parse_images
  rw [parse_images_body_of_ok files imgs infos w hok,
    parse_images_ok_inconsistent imgs infos w hne hshape]
  rfl

/-- Two same-file 2-D images of different shapes, for exercising the
shape-consistency rejection. -/
def mismatchedUpload : List FitsFile :=
  [⟨"a.fits", .ok [⟨true, .twoD ⟨1, 2, [0, 0]⟩, []⟩,
    ⟨true, .twoD ⟨2, 1, [0, 0]⟩, []⟩]⟩]

theorem claim_C2_witness :
    load_flexible_image_collection mismatchedUpload =
      .ok ([⟨1, 2, [0, 0]⟩, ⟨2, 1, [0, 0]⟩],
        [⟨"a.fits", 0, []⟩, ⟨"a.fits", 1, []⟩], none) ∧
    ¬ (∀ i ∈ ([⟨1, 2, [0, 0]⟩, ⟨2, 1, [0, 0]⟩] : List Image2D),
        i.shape = (([⟨1, 2, [0, 0]⟩, ⟨2, 1, [0, 0]⟩] :
          List Image2D).headI).shape) ∧
    parse_images mismatchedUpload = .error ⟨400, stackErrorDetail⟩ := by
  have h1 : load_flexible_image_collection mismatchedUpload =
      .ok ([⟨1, 2, [0, 0]⟩, ⟨2, 1, [0, 0]⟩],
        [⟨"a.fits", 0, []⟩, ⟨"a.fits", 1, []⟩], none) := by decide
  have h2 : ¬ (∀ i ∈ ([⟨1, 2, [0, 0]⟩, ⟨2, 1, [0, 0]⟩] : List Image2D),
      i.shape = (([⟨1, 2, [0, 0]⟩, ⟨2, 1, [0, 0]⟩] :
        List Image2D).headI).shape) := by decide
  exact ⟨h1, h2, claim_C2 mismatchedUpload _ _ _ h1 h2⟩

/-- C3: every exception raised inside `preview_config` or `search_phase`
is surfaced as a single structured HTTP 500 whose detail is the
human-readable message `str(e)` of the underlying exception, while
`parse_images` re-raises already-structured `HTTPException`s unchanged and
wraps any other exception the same way. -/
theorem claim_C3 {α : Type} (body : Except PyException α) :
    (∀ e, body = .error e →
      preview_config_handler body = .error ⟨500, e.str⟩) ∧
    (∀ e, body = .error e →
      search_phase_handler body = .error ⟨500, e.str⟩) ∧
    (∀ h, body = .error (.http h) →
      parse_images_handler body = .error h) ∧
    (∀ m, body = .error (.other m) →
      parse_images_handler body = .error ⟨500, m⟩) := by
  refine ⟨?_, ?_, ?_, ?_⟩
  · intro e he
    rw [he]
    rfl
  · intro e he
    rw [he]
    rfl
  · intro h he
    rw [he]
    rfl
  · intro m he
    rw [he]
    rfl

theorem claim_C3_witness :
    preview_config_handler (α := ℕ) (.error (.other "boom")) =
      .error ⟨500, (PyException.other "boom").str⟩ ∧
    search_phase_handler (α := ℕ) (.error (.other "boom")) =
      .error ⟨500, (PyException.other "boom").str⟩ ∧
    parse_images_handler (α := ℕ) (.error (.http ⟨404, "missing"⟩)) =
      .error ⟨404, "missing"⟩ ∧
    parse_images_handler (α := ℕ) (.error (.other "boom")) =
      .error ⟨500, "boom"⟩ :=
  ⟨(claim_C3 (.error (.other "boom"))).1 _ rfl,
    (claim_C3 (.error (.other "boom"))).2.1 _ rfl,
    (claim_C3 (.error (.http ⟨404, "missing"⟩))).2.2.1 _ rfl,
    (claim_C3 (.error (.other "boom"))).2.2.2 _ rfl⟩

/-- C4: each continuation field of the request, when present, overwrites
exactly the corresponding parameter of the freshly constructed setup, an
absent field leaves the construction-time value, and no continuation field
touches any other field of the setup. -/
theorem claim_C4 (config : OpticalConfigRequest) (s : Opticsetup) :
    (applyInitialValues config s).phase =
      config.initial_phase.getD s.phase ∧
    (applyInitialValues config s).illum =
      config.initial_illum.getD s.illum ∧
    (applyInitialValues config s).defoc_z =
      config.initial_defoc_z.getD s.defoc_z ∧
    (applyInitialValues config s).optax_x =
      config.initial_optax_x.getD s.optax_x ∧
    (applyInitialValues config s).optax_y =
      config.initial_optax_y.getD s.optax_y ∧
    (applyInitialValues config s).focscale =
      config.initial_focscale.getD s.focscale ∧
    (applyInitialValues config s).object_fwhm_pix =
      config.initial_object_fwhm_pix.getD s.object_fwhm_pix ∧
    (applyInitialValues config s).amplitude =
      config.initial_amplitude.getD s.amplitude ∧
    (applyInitialValues config s).background =
      config.initial_background.getD s.background ∧
    (applyInitialValues config s).pdiam = s.pdiam ∧
    (applyInitialValues config s).N = s.N ∧
    (applyInitialValues config s).Ncrop = s.Ncrop ∧
    (applyInitialValues config s).basis_type = s.basis_type ∧
    (applyInitialValues config s).idx = s.idx ∧
    (applyInitialValues config s).phase_basis_cols = s.phase_basis_cols ∧
    (applyInitialValues config s).pupillum = s.pupillum ∧
    (applyInitialValues config s).img = s.img ∧
    (applyInitialValues config s).wvl = s.wvl ∧
    (applyInitialValues config s).fratio = s.fratio ∧
    (applyInitialValues config s).pixelSize = s.pixelSize := by
  unfold applyInitialValues
  rcases config.initial_phase with _ | p <;>
    rcases config.initial_illum with _ | il <;>
    rcases config.initial_defoc_z with _ | dz <;>
    rcases config.initial_optax_x with _ | ox <;>
    rcases config.initial_optax_y with _ | oy <;>
    rcases config.initial_focscale with _ | fs <;>
    rcases config.initial_object_fwhm_pix with _ | ob <;>
    rcases config.initial_amplitude with _ | am <;>
    rcases config.initial_background with _ | bg <;>
    simp

lemma zipWith_sub_getD : ∀ (a b : List ℚ) (i : ℕ),
    i < (List.zipWith (fun x y => x - y) a b).length →
    (List.zipWith (fun x y => x - y) a b).getD i 0 =
      a.getD i 0 - b.getD i 0
  | x :: a, y :: b, 0, _ => by simp
  | x :: a, y :: b, i + 1, h => by
    simp only [List.zipWith_cons_cons, List.getD_cons_succ]
    exact zipWith_sub_getD a b i (by simpa using h)
  | [], _, i, h => by simp at h
  | _ :: _, [], i, h => by simp at h

/-- C6: after the solve, the returned model images are synthesized by the
forward model from the final parameter values packed by the codec in the
documented order (defocus offsets, focal scale, optical-axis x,
optical-axis y, amplitudes, backgrounds, phase coefficients, illumination
weights, object size), the model stack carries the observed-image shape,
and every residual pixel equals the corresponding observed pixel minus the
corresponding model pixel. -/
theorem claim_C6 (solve : Opticsetup → Opticsetup)
    (compute_psfs : Opticsetup → List ℚ → List ℚ) (s : Opticsetup) :
    (searchPhaseSolveAndModel solve compute_psfs s).2.1.data =
      compute_psfs (solve s)
        (encode_coefficients (solve s).defoc_z (solve s).focscale
          (solve s).optax_x (solve s).optax_y (solve s).amplitude
          (solve s).background (solve s).phase (solve s).illum
          (solve s).object_fwhm_pix) ∧
    (searchPhaseSolveAndModel solve compute_psfs s).2.1.n =
      (solve s).img.n ∧
    (searchPhaseSolveAndModel solve compute_psfs s).2.1.h =
      (solve s).img.h ∧
    (searchPhaseSolveAndModel solve compute_psfs s).2.1.w =
      (solve s).img.w ∧
    (searchPhaseSolveAndModel solve compute_psfs s).2.2.data =
      List.zipWith (fun a b => a - b) (solve s).img.data
        (searchPhaseSolveAndModel solve compute_psfs s).2.1.data ∧
    (∀ i : ℕ,
      i < (searchPhaseSolveAndModel solve compute_psfs s).2.2.data.length →
      (searchPhaseSolveAndModel solve compute_psfs s).2.2.data.getD i 0 =
        (solve s).img.data.getD i 0 -
          (searchPhaseSolveAndModel solve compute_psfs
            s).2.1.data.getD i 0) := by
  refine ⟨rfl, rfl, rfl, rfl, rfl, ?_⟩
  intro i hi
  exact zipWith_sub_getD (solve s).img.data _ i hi

/-- A tiny concrete setup for exercising the post-solve reporting path. -/
def sampleSetup : Opticsetup :=
  { phase := [0], illum := [1], defoc_z := [0], optax_x := [0],
    optax_y := [0], focscale := 1, object_fwhm_pix := 0, amplitude := [1],
    background := [0], pdiam := 10, N := 4, Ncrop := 2,
    basis_type := "zernike", idx := [0, 1], phase_basis_cols := 2,
    pupillum := [1, 1], img := ⟨1, 1, 2, [3, 5]⟩, wvl := 1, fratio := 1,
    pixelSize := 1 }

/-- A constant stand-in forward model for witness evaluation. -/
def constPsfs : Opticsetup → List ℚ → List ℚ := fun _ _ => [1, 2]

theorem claim_C6_witness :
    0 < (searchPhaseSolveAndModel id constPsfs sampleSetup).2.2.data.length ∧
    (searchPhaseSolveAndModel id constPsfs sampleSetup).2.2.data.getD 0 0 =
      (id sampleSetup).img.data.getD 0 0 -
        (searchPhaseSolveAndModel id constPsfs
          sampleSetup).2.1.data.getD 0 0 :=
  ⟨by decide, (claim_C6 id constPsfs sampleSetup).2.2.2.2.2 0 (by decide)⟩

/-- C7: both endpoints compute the same configuration summary, and it
carries the effective pupil diameter, `nphi` equal to the size of the
illuminated-pixel index set, the sampling factor
`wavelength·focal-ratio/pixel-size`, the `N×N` computation format, the
crop format, the basis kind, and a mode count equal to the basis-matrix
column count for the modal bases and to `nphi` for the zonal basis. -/
theorem claim_C7 (s : Opticsetup) (config : OpticalConfigRequest) :
    previewConfigInfo s config = searchPhaseConfigInfo s config ∧
    (previewConfigInfo s config).pdiam = s.pdiam ∧
    (previewConfigInfo s config).nphi = s.idx.length ∧
    (previewConfigInfo s config).sampling_factor =
      config.wvl * config.fratio / config.pixelSize ∧
    (previewConfigInfo s config).computation_format =
      toString s.N ++ "x" ++ toString s.N ∧
    (previewConfigInfo s config).data_format =
      toString s.Ncrop ++ "x" ++ toString s.Ncrop ∧
    (previewConfigInfo s config).basis_type = s.basis_type ∧
    (previewConfigInfo s config).phase_modes =
      (if s.basis_type ∈ (["zernike", "eigen", "eigenfull"] : List String)
        then s.phase_basis_cols else s.idx.length) := by
  refine ⟨rfl, rfl, rfl, rfl, rfl, rfl, rfl, ?_⟩
  have key : (if s.basis_type = "eigen" ∨ s.basis_type = "zernike"
      then s.phase_basis_cols
      else if s.basis_type = "eigenfull" then s.phase_basis_cols
      else s.idx.length) =
      (if s.basis_type ∈ (["zernike", "eigen", "eigenfull"] : List String)
        then s.phase_basis_cols else s.idx.length) := by
    by_cases h1 : s.basis_type = "zernike" <;>
      by_cases h2 : s.basis_type = "eigen" <;>
      by_cases h3 : s.basis_type = "eigenfull" <;>
      simp [h1, h2, h3]
  exact key

/-- C8: during setup construction both endpoints run the constructor with
`sys.stdin` replaced by a stream of affirmative `"y"` answers (so warning
prompts are auto-accepted and nothing blocks on interactive input), and the
original stdin/stdout pair is restored on every execution path — in
particular also when construction raises; the solver-stage stdout
redirection in `search_phase` likewise restores the original stream. -/
theorem claim_C8 {E α : Type} (construct run : SysStdio → Except E α)
    (s0 : SysStdio) :
    (constructWithMockedStdio construct s0).1 = construct mockedStdio ∧
    mockedStdio.stdin = .answerStream (List.replicate 100 "y") ∧
    (constructWithMockedStdio construct s0).2 = s0 ∧
    (∀ e, construct mockedStdio = .error e →
      (constructWithMockedStdio construct s0).2 = s0) ∧
    (solveWithRedirectedStdout run s0).1 =
      run { s0 with stdout := .loggerRedirect } ∧
    (solveWithRedirectedStdout run s0).2 = s0 :=
  ⟨rfl, rfl, rfl, fun _ _ => rfl, rfl, rfl⟩

theorem claim_C8_witness :
    (constructWithMockedStdio (fun _ => (.error 7 : Except ℕ ℕ))
      ⟨.interactive, .original⟩).2 = ⟨.interactive, .original⟩ :=
  (claim_C8 (fun _ => .error 7) (fun _ => .ok 0)
    ⟨.interactive, .original⟩).2.2.2.1 7 rfl

lemma foldl_min_const (x : ℚ) : ∀ xs : List ℚ,
    (∀ v ∈ xs, v = x) → xs.foldl min x = x
  | [], _ => rfl
  | y :: ys, h => by
    have hy : y = x := h y (by simp)
    rw [List.foldl_cons, hy, min_self]
    exact foldl_min_const x ys (fun v hv => h v (by simp [hv]))

lemma foldl_max_const (x : ℚ) : ∀ xs : List ℚ,
    (∀ v ∈ xs, v = x) → xs.foldl max x = x
  | [], _ => rfl
  | y :: ys, h => by
    have hy : y = x := h y (by simp)
    rw [List.foldl_cons, hy, max_self]
    exact foldl_max_const x ys (fun v hv => h v (by simp [hv]))

/-- C9: thumbnail normalisation rejects the empty array with an error;
when the maximum exceeds the minimum it rescales every pixel by the linear
map sending the minimum to grey level 0 and the maximum to 255; and when
all values are equal it produces a uniform mid-grey plane at level 128. -/
theorem claim_C9 (img : Image2D) :
    (img.data = [] → generate_thumbnail_norm img =
      .error "Cannot generate thumbnail from empty array") ∧
    (img.data ≠ [] → ratListMin img.data < ratListMax img.data →
      generate_thumbnail_norm img =
        .ok (img.data.map (fun v => ratToUint8
          ((v - ratListMin img.data) /
            (ratListMax img.data - ratListMin img.data) * 255))) ∧
      ratToUint8 ((ratListMin img.data - ratListMin img.data) /
        (ratListMax img.data - ratListMin img.data) * 255) = 0 ∧
      ratToUint8 ((ratListMax img.data - ratListMin img.data) /
        (ratListMax img.data - ratListMin img.data) * 255) = 255) ∧
    (img.data ≠ [] → (∀ v ∈ img.data, v = img.data.headI) →
      generate_thumbnail_norm img =
        .ok (List.replicate img.data.length 128)) := by
  refine ⟨?_, ?_, ?_⟩
  · intro hnil
    unfold generate_thumbnail_norm
    rw [if_pos (by rw [hnil]; rfl)]
  · intro hne hlt
    refine ⟨?_, ?_, ?_⟩
    · unfold generate_thumbnail_norm
      rw [if_neg (by simpa [List.length_eq_zero] using hne), if_pos hlt]
    · have h0 : (ratListMin img.data - ratListMin img.data) /
          (ratListMax img.data - ratListMin img.data) * 255 = 0 := by
        rw [sub_self, zero_div, zero_mul]
      rw [h0]
      norm_num [ratToUint8]
    · have hne0 : ratListMax img.data - ratListMin img.data ≠ 0 :=
        sub_ne_zero.mpr (ne_of_gt hlt)
      have h1 : (ratListMax img.data - ratListMin img.data) /
          (ratListMax img.data - ratListMin img.data) * 255 = 255 := by
        rw [div_self hne0, one_mul]
      rw [h1]
      norm_num [ratToUint8]
      rfl
  · intro hne hconst
    obtain ⟨x, xs, hx⟩ := List.exists_cons_of_ne_nil hne
    have hhead : img.data.headI = x := by rw [hx]; rfl
    rw [hhead] at hconst
    have hmin : ratListMin img.data = x := by
      rw [hx]
      exact foldl_min_const x xs
        (fun v hv => hconst v (by rw [hx]; simp [hv]))
    have hmax : ratListMax img.data = x := by
      rw [hx]
      exact foldl_max_const x xs
        (fun v hv => hconst v (by rw [hx]; simp [hv]))
    unfold generate_thumbnail_norm
    rw [if_neg (by simpa [List.length_eq_zero] using hne),
      if_neg (by rw [hmin, hmax]; exact lt_irrefl x)]
    congr 1
    rw [List.map_const']

theorem claim_C9_witness :
    generate_thumbnail_norm ⟨1, 0, []⟩ =
      .error "Cannot generate thumbnail from empty array" ∧
    generate_thumbnail_norm ⟨1, 2, [0, 1]⟩ =
      .ok (([0, 1] : List ℚ).map (fun v => ratToUint8
        ((v - ratListMin [0, 1]) /
          (ratListMax [0, 1] - ratListMin [0, 1]) * 255))) ∧
    generate_thumbnail_norm ⟨1, 2, [3, 3]⟩ =
      .ok (List.replicate ([3, 3] : List ℚ).length 128) :=
  ⟨(claim_C9 ⟨1, 0, []⟩).1 rfl,
    ((claim_C9 ⟨1, 2, [0, 1]⟩).2.1 (by decide) (by decide)).1,
    (claim_C9 ⟨1, 2, [3, 3]⟩).2.2 (by decide) (by decide)⟩

lemma sum_sq_dev (xs : List ℝ) (m : ℝ) :
    (xs.map (fun x => (x - m) ^ 2)).sum =
      (xs.map (fun x => x ^ 2)).sum - 2 * m * xs.sum +
        (xs.length : ℝ) * m ^ 2 := by
  induction xs with
  | nil => simp
  | cons x l ih =>
    simp only [List.map_cons, List.sum_cons, List.length_cons, ih]
    push_cast
    ring

lemma npStd_eq_specStdDev (xs : List ℝ) : npStd xs = specStdDev xs := by
  unfold npStd specStdDev npMean
  congr 1
  rcases eq_or_ne xs.length 0 with h0 | h0
  · have hx : xs = [] := List.length_eq_zero.mp h0
    subst hx
    simp
  · have hn : (xs.length : ℝ) ≠ 0 := Nat.cast_ne_zero.mpr h0
    rw [sum_sq_dev]
    field_simp
    ring

lemma phiPupilNm_eq (phaseMap : List ℝ) (wvl : ℝ) :
    phiPupilNm phaseMap wvl = phaseMap.map (radiansToNm wvl) := by
  unfold phiPupilNm
  have hf : (fun x => x * wvl / (2 * Real.pi) * 1e9) =
      fun x => radiansToNm wvl x := by
    funext x
    unfold radiansToNm
    ring
  rw [hf]

/-- C5: the six residual-aberration statistics of the `search_phase`
response are exactly plain and illumination-weighted RMS for the full,
tip/tilt-removed, and tip/tilt/defocus-removed phase maps, where each map
is first converted from radians to nanometres by multiplying by
`wavelength/(2π)·1e9`, plain RMS is the standard deviation of the
converted map over the illuminated pixels, and weighted RMS equals
`sqrt(Σ φ²·pupillum / Σ pupillum)`. -/
theorem claim_C5 (phiFull phiNoTilt phiNoTiltDef pupillum : List ℝ)
    (wvl : ℝ) :
    (searchPhaseRmsStats phiFull phiNoTilt phiNoTiltDef pupillum wvl).raw =
      specStdDev (phiFull.map (radiansToNm wvl)) ∧
    (searchPhaseRmsStats phiFull phiNoTilt phiNoTiltDef pupillum
        wvl).weighted =
      specWeightedRms (phiFull.map (radiansToNm wvl)) pupillum ∧
    (searchPhaseRmsStats phiFull phiNoTilt phiNoTiltDef pupillum
        wvl).raw_notilt =
      specStdDev (phiNoTilt.map (radiansToNm wvl)) ∧
    (searchPhaseRmsStats phiFull phiNoTilt phiNoTiltDef pupillum
        wvl).weighted_notilt =
      specWeightedRms (phiNoTilt.map (radiansToNm wvl)) pupillum ∧
    (searchPhaseRmsStats phiFull phiNoTilt phiNoTiltDef pupillum
        wvl).raw_notiltdef =
      specStdDev (phiNoTiltDef.map (radiansToNm wvl)) ∧
    (searchPhaseRmsStats phiFull phiNoTilt phiNoTiltDef pupillum
        wvl).weighted_notiltdef =
      specWeightedRms (phiNoTiltDef.map (radiansToNm wvl)) pupillum := by
  unfold searchPhaseRmsStats
  simp only [phiPupilNm_eq]
  exact ⟨npStd_eq_specStdDev _, rfl, npStd_eq_specStdDev _, rfl,
    npStd_eq_specStdDev _, rfl⟩
